import Mathlib

/-!
Verification of the crypto-daily-news aggregator (src/app.js, class CryptoNewsApp).

The JavaScript source is shallowly embedded:
* `Article` mirrors the normalized article record built by the three source
  adapters.  A JS object field that may hold a non-string value (only `title`
  can, since `fetchCryptoCompareNews` copies `article.title` unguarded) is
  modelled as `Option String`: `some s` is a JS string, `none` is any
  non-string JS value (in practice `undefined`), on which
  `title.toLowerCase()` in `removeDuplicates` throws a TypeError.
* `publishedAt` is modelled as the time value (epoch milliseconds) of the
  ISO-8601 string the code stores: the string is produced by
  `Date.prototype.toISOString` (or is the source's own ISO `created_at`) and
  is consumed only through `new Date(...)` in the sort comparator and through
  display formatting, so only its time value is observable.
* Fallible JS code (`try { ... } catch`) is embedded with `Except Unit`:
  the `try` body is a `...Body` definition, the enclosing function applies
  the `catch` branch to its result.
* Raw JSON payloads of the three HTTP endpoints are modelled by the `Js`
  value type, so that malformed and unexpected shapes (missing fields,
  wrong types, `null`s) are expressible, as the adapters' guards require.
-/

namespace CryptoNews

/-- The normalized article record produced by the adapters (src/app.js,
object literals at lines 87-95, 112-120 and 136-144). -/
structure Article where
  title : Option String
  description : String
  url : String
  imageUrl : String
  source : String
  publishedAt : Int
  categories : List String
deriving DecidableEq, Repr, Inhabited

/-- What the rendering boundary (`newsContainer.innerHTML`) currently shows:
the loading spinner (`showLoading`), the "Unable to load news" message
(`showError`), or the card list rendered by `renderNews` (an empty list
renders the distinct "No articles found" indication). -/
inductive Display where
  | loading
  | unableToLoad
  | rendered (articles : List Article)
deriving DecidableEq, Repr

/-- The controller's mutable state: fields of the `CryptoNewsApp` instance
(`this.allNews`, `this.currentFilter`, `this.isLoading`, lines 12-14),
the search box content (`searchInput.value`), the rendering container and
the "last updated" label. -/
structure AppState where
  allNews : List Article
  currentFilter : String
  searchValue : String
  isLoading : Bool
  display : Display
  lastUpdate : Option Int
deriving DecidableEq, Repr

/-! ### String primitives

The JS string methods the code uses are implemented over character lists
(`String.toList`), so that every definition evaluates by kernel reduction.
`Char.toLower`/`Char.toUpper` fold ASCII letters only and
`Char.isWhitespace` covers space, tab and line breaks: both are restrictions
of the JS operations that agree on them for the data at hand. -/

/-- `String.prototype.toLowerCase`. -/
def strLower (s : String) : String :=
  String.mk (s.toList.map Char.toLower)

/-- `String.prototype.toUpperCase`. -/
def strUpper (s : String) : String :=
  String.mk (s.toList.map Char.toUpper)

/-- `String.prototype.substring(0, n)`. -/
def strTake (s : String) (n : Nat) : String :=
  String.mk (s.toList.take n)

/-- `String.prototype.trim`. -/
def strTrim (s : String) : String :=
  String.mk (((s.toList.dropWhile Char.isWhitespace).reverse.dropWhile
    Char.isWhitespace).reverse)

instance {ε α : Type} [DecidableEq ε] [DecidableEq α] : DecidableEq (Except ε α) :=
  fun x y =>
    match x, y with
    | Except.error a, Except.error b =>
      match decEq a b with
      | isTrue h => isTrue (h ▸ rfl)
      | isFalse h => isFalse (fun hh => h (by cases hh; rfl))
    | Except.ok a, Except.ok b =>
      match decEq a b with
      | isTrue h => isTrue (h ▸ rfl)
      | isFalse h => isFalse (fun hh => h (by cases hh; rfl))
    | Except.error _, Except.ok _ => isFalse (fun h => Except.noConfusion h)
    | Except.ok _, Except.error _ => isFalse (fun h => Except.noConfusion h)

/-! ### Merge step (lines 54-62)

`Promise.allSettled` outcomes of the three adapter calls are modelled as
`Option (List Article)`: `some l` is a fulfilled promise whose value is the
adapter's returned array `l`, `none` is a rejected one.  The code's
`result.status === 'fulfilled' && result.value` truthiness test is the
`some` match: the adapters always fulfil with an array, and every array
(including `[]`) is truthy in JS. -/

/-- Lines 57-62: start from `this.allNews = []` and append the value of every
fulfilled result. -/
def mergeSettled (results : List (Option (List Article))) : List Article :=
  results.foldl
    (fun acc r =>
      match r with
      | some v => acc ++ v
      | none => acc)
    []

/-! ### Sort step (lines 64-65)

The comparator `(a, b) => new Date(b.publishedAt) - new Date(a.publishedAt)`
orders by time value descending.  `Array.prototype.sort` is a stable sort
agreeing with a consistent comparator; for a total preorder the stable
sorted result is unique, and Mathlib's `insertionSort` with a reflexive-on-
ties relation is exactly that stable sort. -/

/-- The comparator's order: `a` may precede `b` when `a` is at least as
recent. -/
def dateGe (a b : Article) : Prop := b.publishedAt ≤ a.publishedAt

instance : DecidableRel dateGe :=
  fun a b => inferInstanceAs (Decidable (b.publishedAt ≤ a.publishedAt))

instance : IsTotal Article dateGe :=
  ⟨fun a b => Int.le_total b.publishedAt a.publishedAt⟩

instance : IsTrans Article dateGe :=
  ⟨fun _ _ _ hab hbc => le_trans hbc hab⟩

/-- Line 65: `this.allNews.sort((a, b) => new Date(b.publishedAt) - new Date(a.publishedAt))`. -/
def sortByDate (l : List Article) : List Article :=
  l.insertionSort dateGe

/-! ### Deduplication (lines 164-172, `removeDuplicates`) -/

/-- The dedup key of a title string: `title.toLowerCase().substring(0, 50)`
(line 167). -/
def titleKey (t : String) : String :=
  strTake (strLower t) 50

/-- Membership in the `seen` set of keys (`Set.prototype.has`, string
equality). -/
def seenHas : List String → String → Bool
  | [], _ => false
  | s :: rest, k => k == s || seenHas rest k

/-- The body of `removeDuplicates` (lines 165-171): walk the list in order,
keeping an article when its key is unseen and recording the key.  An article
whose `title` is not a string makes `article.title.toLowerCase()` throw a
TypeError, which propagates out of `filter` (the function has no guard of
its own): that is the `Except.error` case. -/
def removeDuplicatesAux : List Article → List String → Except Unit (List Article)
  | [], _ => Except.ok []
  | a :: rest, seen =>
    match a.title with
    | none => Except.error ()
    | some t =>
      if seenHas seen (titleKey t) then removeDuplicatesAux rest seen
      else
        match removeDuplicatesAux rest (titleKey t :: seen) with
        | Except.error e => Except.error e
        | Except.ok tail => Except.ok (a :: tail)

/-- `removeDuplicates(news)` (lines 164-172): the `seen` set starts empty. -/
def removeDuplicates (news : List Article) : Except Unit (List Article) :=
  removeDuplicatesAux news []

/-! ### Filter stage (lines 174-195, `filterNews`)

`filterNews` reads `this.currentFilter` and `this.searchInput.value`,
filters `this.allNews` and hands the result to `renderNews`.  The pure part
(list, category filter, raw search text) → filtered list is `applyFilters`,
the name the spec gives this stage. -/

/-- JS string conversion of a stored `title` value when it is concatenated
with `+` (line 180/189): a string is used as is, `undefined` prints as
"undefined" (the non-string case is approximated by that spelling, which is
exact for the one non-string value the adapters can store). -/
def titleText (t : Option String) : String :=
  t.getD "undefined"

/-- Character-list prefix test used by `strIncludes`. -/
def matchesAt : List Char → List Char → Bool
  | [], _ => true
  | _ :: _, [] => false
  | c :: cs, d :: ds => c == d && matchesAt cs ds

/-- Does `pat` occur contiguously in `l`? -/
def includesChars (pat : List Char) : List Char → Bool
  | [] => matchesAt pat []
  | c :: rest => matchesAt pat (c :: rest) || includesChars pat rest

/-- `String.prototype.includes`: substring containment. -/
def strIncludes (s pat : String) : Bool :=
  includesChars pat.toList s.toList

/-- Line 180: `(article.title + ' ' + article.description + ' ' + article.categories.join(' ')).toLowerCase()`. -/
def categoryText (a : Article) : String :=
  strLower (titleText a.title ++ " " ++ a.description ++ " " ++
    String.intercalate " " a.categories)

/-- Line 189: `(article.title + ' ' + article.description + ' ' + article.source).toLowerCase()`. -/
def searchText (a : Article) : String :=
  strLower (titleText a.title ++ " " ++ a.description ++ " " ++ a.source)

/-- Lines 174-194: category filter (skipped for the sentinel `"all"`), then
free-text search filter (skipped when the lower-cased, trimmed term is the
empty string, which is falsy in JS). -/
def applyFilters (news : List Article) (currentFilter searchValue : String) : List Article :=
  let filtered :=
    if currentFilter ≠ "all" then
      news.filter (fun a => strIncludes (categoryText a) (strLower currentFilter))
    else news
  let searchTerm := strTrim (strLower searchValue)
  if searchTerm ≠ "" then
    filtered.filter (fun a => strIncludes (searchText a) searchTerm)
  else filtered

/-! ### Raw JSON values and the three source adapters (lines 81-151)

The adapters read arbitrary parsed-JSON values, so their payloads are
modelled by the `Js` value type (`undef` is JavaScript `undefined`,
reachable through absent object fields). -/

/-- A JavaScript value as the adapters can observe one. -/
inductive Js where
  | undef
  | null
  | bool (b : Bool)
  | num (n : Int)
  | str (s : String)
  | arr (elems : List Js)
  | obj (fields : List (String × Js))

/-- JS truthiness.  `undefined`, `null`, `false`, `0` and `""` are falsy;
arrays and objects (even empty) are truthy.  (Numbers are modelled as `Int`,
so `NaN` does not arise here.) -/
def truthy : Js → Bool
  | Js.undef => false
  | Js.null => false
  | Js.bool b => b
  | Js.num n => n != 0
  | Js.str s => s != ""
  | Js.arr _ => true
  | Js.obj _ => true

/-- Plain property access `v.name`: a TypeError on `undefined`/`null`,
the field's value (or `undefined`) on an object, `undefined` on other
values (no own properties of primitives or arrays are modelled, none are
accessed by the code). -/
def jsGet : Js → String → Except Unit Js
  | Js.undef, _ => Except.error ()
  | Js.null, _ => Except.error ()
  | Js.obj fields, name =>
    Except.ok (((fields.find? (fun p => p.1 == name)).map Prod.snd).getD Js.undef)
  | _, _ => Except.ok Js.undef

/-- Optional chaining `v?.name`: `undefined` when the receiver is nullish
(short-circuiting the rest of the chain), otherwise plain access. -/
def optGet (v : Js) (name : String) : Js :=
  match jsGet v name with
  | Except.ok r => r
  | Except.error _ => Js.undef

/-- Optional element access `v?.[0]` (line 139). -/
def optIndex0 : Js → Js
  | Js.arr [] => Js.undef
  | Js.arr (x :: _) => x
  | Js.str s => if s.isEmpty then Js.undef else Js.str (strTake s 1)
  | Js.obj fields =>
    ((fields.find? (fun p => p.1 == "0")).map Prod.snd).getD Js.undef
  | _ => Js.undef

/-- One element inside `Array.prototype.join` (nullish elements become the
empty string).  Elements nested deeper than one level are approximated by
the empty string (no code path observes them: the adapters stringify only
payload leaves). -/
def jsLeafDisplay : Js → String
  | Js.undef => ""
  | Js.null => ""
  | Js.bool true => "true"
  | Js.bool false => "false"
  | Js.num n => toString n
  | Js.str s => s
  | Js.arr _ => ""
  | Js.obj _ => "[object Object]"

/-- Comma-joining for `Array.prototype.toString`. -/
def joinComma : List String → String
  | [] => ""
  | [x] => x
  | x :: y :: rest => x ++ "," ++ joinComma (y :: rest)

/-- JS string conversion, as template literals and `+` on strings perform it. -/
def jsToDisplay : Js → String
  | Js.undef => "undefined"
  | Js.null => "null"
  | Js.bool true => "true"
  | Js.bool false => "false"
  | Js.num n => toString n
  | Js.str s => s
  | Js.arr l => joinComma (l.map jsLeafDisplay)
  | Js.obj _ => "[object Object]"

/-- JS `ToNumber`, `none` standing for `NaN`.  Strings are approximated by
decimal-integer parsing (the real conversion also accepts fractions and
other radices; no claim depends on those), non-empty arrays and objects by
`NaN`. -/
def jsToNumber : Js → Option Int
  | Js.num n => some n
  | Js.null => some 0
  | Js.bool b => some (if b then 1 else 0)
  | Js.str s => if strTrim s = "" then some 0 else (strTrim s).toInt?
  | Js.arr [] => some 0
  | _ => none

/-- How one adapter's `fetch` + `response.json()` pair can settle: the fetch
rejects (network error), the body fails to parse as JSON, or a parsed JSON
document is produced (non-2xx responses also land in the last two cases:
the code never checks `response.ok`). -/
inductive FetchOutcome where
  | networkError
  | jsonError
  | ok (data : Js)

/-- `Array.prototype.map` with a throwing callback: sequential, aborted by
the first throw. -/
def mapMExc (f : Js → Except Unit Article) : List Js → Except Unit (List Article)
  | [] => Except.ok []
  | x :: rest =>
    match f x with
    | Except.error e => Except.error e
    | Except.ok a =>
      match mapMExc f rest with
      | Except.error e => Except.error e
      | Except.ok tail => Except.ok (a :: tail)

/-- Storing a raw JS value into the `title` field: a string is kept, any
other value is the throwing (`none`) case of `Article.title`. -/
def asTitle : Js → Option String
  | Js.str s => some s
  | _ => none

/-! #### CryptoCompare adapter (lines 81-102, `fetchCryptoCompareNews`) -/

/-- Line 89: `article.body ? article.body.substring(0, 200) + '...' : ''`.
A truthy non-string `body` has no `substring` method: TypeError. -/
def ccDescription (article : Js) : Except Unit String := do
  let b ← jsGet article "body"
  if truthy b then
    match b with
    | Js.str s => pure (strTake s 200 ++ "...")
    | _ => Except.error ()
  else
    pure ""

/-- Line 92: `article.source_info?.name || article.source || 'CryptoCompare'`. -/
def ccSource (article si : Js) : Except Unit String :=
  let sname := optGet si "name"
  if truthy sname then Except.ok (jsToDisplay sname)
  else
    match jsGet article "source" with
    | Except.error e => Except.error e
    | Except.ok s0 => Except.ok (if truthy s0 then jsToDisplay s0 else "CryptoCompare")

/-- Line 94: `article.categories ? article.categories.split('|') : []`.
A truthy non-string has no `split` method: TypeError. -/
def ccCategories (article : Js) : Except Unit (List String) := do
  let c ← jsGet article "categories"
  if truthy c then
    match c with
    | Js.str s => pure (s.splitOn "|")
    | _ => Except.error ()
  else
    pure []

/-- Line 93: `new Date(article.published_on * 1000).toISOString()`.
Throws a RangeError when `published_on` does not convert to a number (the
time value is `NaN`); otherwise the stored ISO string's time value is the
converted number times 1000. -/
def ccPublishedAt (pOn : Js) : Except Unit Int :=
  match jsToNumber pOn with
  | some n => Except.ok (n * 1000)
  | none => Except.error ()

/-- The callback of `data.Data.map` (lines 87-95), building one article.
Field computations appear in the object-literal order of the source; `ph`
is the placeholder URL `getPlaceholderImage()` would pick. -/
def mapCCArticle (ph : String) (article : Js) : Except Unit Article := do
  let t ← jsGet article "title"
  let desc ← ccDescription article
  let u ← jsGet article "url"
  let img ← jsGet article "imageurl"
  let si ← jsGet article "source_info"
  let src ← ccSource article si
  let pOn ← jsGet article "published_on"
  let pMs ← ccPublishedAt pOn
  let cats ← ccCategories article
  pure
    { title := asTitle t
      description := desc
      url := jsToDisplay u
      imageUrl := if truthy img then jsToDisplay img else ph
      source := src
      publishedAt := pMs
      categories := cats }

/-- The `try` body of `fetchCryptoCompareNews` (lines 83-97). -/
def fetchCryptoCompareBody (ph : String) : FetchOutcome → Except Unit (List Article)
  | FetchOutcome.networkError => Except.error ()
  | FetchOutcome.jsonError => Except.error ()
  | FetchOutcome.ok data => do
    let d ← jsGet data "Data"
    if truthy d then
      match d with
      | Js.arr items => mapMExc (mapCCArticle ph) items
      | _ => Except.error ()
    else
      pure []

/-- `fetchCryptoCompareNews` (lines 81-102): the `catch` (lines 98-101)
degrades every throw to `[]`. -/
def fetchCryptoCompareNews (ph : String) (o : FetchOutcome) : List Article :=
  match fetchCryptoCompareBody ph o with
  | Except.ok l => l
  | Except.error _ => []

/-! #### CoinGecko trending adapter (lines 104-127, `fetchCoinGeckoNews`) -/

/-- Line 113: `item.item.symbol.toUpperCase()` — a TypeError on a
non-string symbol. -/
def cgUpper : Js → Except Unit String
  | Js.str s => Except.ok (strUpper s)
  | _ => Except.error ()

/-- The callback of `data.coins.slice(0, 5).map` (lines 112-120); `now` is
`new Date().toISOString()` at fetch time. -/
def mapCGItem (ph : String) (now : Int) (item : Js) : Except Unit Article := do
  let it ← jsGet item "item"
  let nm ← jsGet it "name"
  let sym ← jsGet it "symbol"
  let symU ← cgUpper sym
  let rank ← jsGet it "market_cap_rank"
  let idv ← jsGet it "id"
  let large ← jsGet it "large"
  let thumb ← jsGet it "thumb"
  pure
    { title := some (jsToDisplay nm ++ " (" ++ symU ++ ") is Trending!")
      description := jsToDisplay nm ++ " is currently trending on CoinGecko. Market Cap Rank: #" ++
        (if truthy rank then jsToDisplay rank else "N/A")
      url := "https://www.coingecko.com/en/coins/" ++ jsToDisplay idv
      imageUrl :=
        if truthy large then jsToDisplay large
        else if truthy thumb then jsToDisplay thumb
        else ph
      source := "CoinGecko Trending"
      publishedAt := now
      categories := ["trending", "market"] }

/-- The `try` body of `fetchCoinGeckoNews` (lines 106-122). -/
def fetchCoinGeckoBody (ph : String) (now : Int) : FetchOutcome → Except Unit (List Article)
  | FetchOutcome.networkError => Except.error ()
  | FetchOutcome.jsonError => Except.error ()
  | FetchOutcome.ok data => do
    let c ← jsGet data "coins"
    if truthy c then
      match c with
      | Js.arr items => mapMExc (mapCGItem ph now) (items.take 5)
      | _ => Except.error ()
    else
      pure []

/-- `fetchCoinGeckoNews` (lines 104-127) with its `catch` (lines 123-126). -/
def fetchCoinGeckoNews (ph : String) (now : Int) (o : FetchOutcome) : List Article :=
  match fetchCoinGeckoBody ph now o with
  | Except.ok l => l
  | Except.error _ => []

/-! #### Status-updates adapter (lines 129-151, `fetchAlternativeNews`) -/

/-- `v?.substring(0, n)`: `undefined` for a nullish receiver, the character
prefix for a string, a TypeError for any other receiver. -/
def altSub (v : Js) (n : Nat) : Except Unit Js :=
  match v with
  | Js.undef => Except.ok Js.undef
  | Js.null => Except.ok Js.undef
  | Js.str s => Except.ok (Js.str (strTake s n))
  | _ => Except.error ()

/-- The callback of `data.status_updates.map` (lines 136-144).  `parseDate`
is the host's ISO-8601 date parser (the stored `created_at` string is only
observable through its time value); `now` is fetch time. -/
def mapAltUpdate (parseDate : String → Int) (ph : String) (now : Int) (update : Js) :
    Except Unit Article := do
  let proj ← jsGet update "project"
  let pname := optGet proj "name"
  let d ← jsGet update "description"
  let title ←
    if truthy pname then do
      let d60 ← altSub d 60
      pure (jsToDisplay pname ++ ": " ++
        (if truthy d60 then jsToDisplay d60 else "Update") ++ "...")
    else do
      let d80 ← altSub d 80
      pure (if truthy d80 then jsToDisplay d80 else "Crypto Update")
  let home0 := optIndex0 (optGet (optGet proj "links") "homepage")
  let imgL := optGet (optGet proj "image") "large"
  let cAt ← jsGet update "created_at"
  let cat ← jsGet update "category"
  pure
    { title := some title
      description := if truthy d then jsToDisplay d else ""
      url := if truthy home0 then jsToDisplay home0 else "#"
      imageUrl := if truthy imgL then jsToDisplay imgL else ph
      source := if truthy pname then jsToDisplay pname else "Crypto Project"
      publishedAt :=
        if truthy cAt then
          match cAt with
          | Js.str s => parseDate s
          | Js.num n => n
          | _ => 0
        else now
      categories := [if truthy cat then jsToDisplay cat else "update"] }

/-- The `try` body of `fetchAlternativeNews` (lines 131-146). -/
def fetchAlternativeBody (parseDate : String → Int) (ph : String) (now : Int) :
    FetchOutcome → Except Unit (List Article)
  | FetchOutcome.networkError => Except.error ()
  | FetchOutcome.jsonError => Except.error ()
  | FetchOutcome.ok data => do
    let su ← jsGet data "status_updates"
    if truthy su then
      match su with
      | Js.arr items => mapMExc (mapAltUpdate parseDate ph now) items
      | _ => Except.error ()
    else
      pure []

/-- `fetchAlternativeNews` (lines 129-151) with its `catch` (lines 147-150). -/
def fetchAlternativeNews (parseDate : String → Int) (ph : String) (now : Int)
    (o : FetchOutcome) : List Article :=
  match fetchAlternativeBody parseDate ph now o with
  | Except.ok l => l
  | Except.error _ => []

/-! ### The fetch cycle (lines 40-79, `fetchNews`) -/

/-- One run of `fetchNews`.  `results` are the settle outcomes of the three
adapter promises (network nondeterminism supplied as a parameter); `now` is
the wall clock read by `updateLastUpdate`.  The body follows the source
line by line: the single-flight guard (line 41), `isLoading = true`,
`showLoading`, the merge of settled results (57-62), the in-place sort (65),
`this.allNews = this.removeDuplicates(this.allNews)` (68) whose throw is the
only reachable exception inside the `try` (the comparator never throws, the
merge loop never throws), the `catch` that calls `showError` (73-76), and
`isLoading = false` after the `try`/`catch` (78).  On a throw inside
`removeDuplicates` the assignment on line 68 has not happened, so `allNews`
still holds the sorted merged list stored by lines 57-65. -/
def fetchNews (s : AppState) (results : List (Option (List Article))) (now : Int) : AppState :=
  if s.isLoading then s
  else
    let merged := mergeSettled results
    let sorted := sortByDate merged
    match removeDuplicates sorted with
    | Except.error _ =>
      { s with allNews := sorted
               display := Display.unableToLoad
               isLoading := false }
    | Except.ok deduped =>
      { s with allNews := deduped
               lastUpdate := some now
               display := Display.rendered (applyFilters deduped s.currentFilter s.searchValue)
               isLoading := false }

/-! ### Specification-side definitions and proof helpers -/

/-- The dedup key of an article as the spec describes it (title lower-cased
and truncated to 50 characters); meaningful when the title is a string,
which the spec's data model guarantees (`title`: text, required). -/
def keyD (a : Article) : String :=
  titleKey (a.title.getD "")

/-- Pure image of `removeDuplicatesAux` on title-populated input. -/
def goD : List Article → List String → List Article
  | [], _ => []
  | a :: rest, seen =>
    if seenHas seen (keyD a) then goD rest seen
    else a :: goD rest (keyD a :: seen)

/-- Deduplication as the spec words it: "keep the first occurrence, in
order, of each distinct key; drop subsequent occurrences with the same
key" — keep the head (the first occurrence of its own key), drop every
later article carrying the same key, continue. -/
def specDedupFirst : List Article → List Article
  | [] => []
  | a :: rest => a :: specDedupFirst (rest.filter (fun b => keyD b != keyD a))
termination_by l => l.length
decreasing_by
  simp only [List.length_cons]
  exact Nat.lt_succ_of_le (List.length_filter_le _ _)

/-! ### Concrete values for witnesses and counterexamples -/

/-- An article already on screen before a failing cycle. -/
def articleOld : Article :=
  { title := some "Old headline"
    description := ""
    url := "#"
    imageUrl := "p"
    source := "CryptoCompare"
    publishedAt := 0
    categories := [] }

/-- An article whose `title` is not a string (`fetchCryptoCompareNews`
copies `article.title` unguarded, so a record without a title produces
`undefined` here); `removeDuplicates` throws on it. -/
def articleNoTitle : Article :=
  { title := none
    description := ""
    url := "#"
    imageUrl := "p"
    source := "CryptoCompare"
    publishedAt := 1000
    categories := [] }

/-- Controller state before a cycle: idle, one article rendered. -/
def statePrior : AppState :=
  { allNews := [articleOld]
    currentFilter := "all"
    searchValue := ""
    isLoading := false
    display := Display.rendered [articleOld]
    lastUpdate := none }

/-- Controller state while a cycle is in flight. -/
def stateBusy : AppState :=
  { allNews := [articleOld]
    currentFilter := "all"
    searchValue := ""
    isLoading := true
    display := Display.loading
    lastUpdate := none }

/-- Two articles whose titles differ only in case (hence share the
case-folded 50-character key) and one unrelated article. -/
def articleBtcUpper : Article :=
  { title := some "BITCOIN Surges"
    description := ""
    url := "#"
    imageUrl := "p"
    source := "CryptoCompare"
    publishedAt := 2000
    categories := [] }

def articleBtcLower : Article :=
  { title := some "bitcoin surges"
    description := ""
    url := "#"
    imageUrl := "p"
    source := "CoinGecko Trending"
    publishedAt := 1000
    categories := ["trending"] }

def articleEth : Article :=
  { title := some "Ethereum Update"
    description := ""
    url := "#"
    imageUrl := "p"
    source := "Crypto Project"
    publishedAt := 500
    categories := ["update"] }

/-- A duplicate-bearing list in sorted order. -/
def dupList : List Article :=
  [articleBtcUpper, articleBtcLower, articleEth]

/-- A 201-character body, longer than the 200-character truncation point. -/
def longBody : String :=
  String.mk (List.replicate 201 'a')

/-- A CryptoCompare payload whose single record carries `longBody`. -/
def ccPayloadLong : Js :=
  Js.obj [("Data", Js.arr [Js.obj
    [("title", Js.str "t"),
     ("body", Js.str longBody),
     ("url", Js.str "u"),
     ("published_on", Js.num 1)]])]

/-- A CryptoCompare payload whose single record has no `body` field. -/
def ccPayloadSmall : Js :=
  Js.obj [("Data", Js.arr [Js.obj
    [("title", Js.str "Hello"),
     ("url", Js.str "u"),
     ("published_on", Js.num 2)]])]

/-- The article `fetchCryptoCompareNews "p"` produces from `ccPayloadSmall`. -/
def ccArticleSmall : Article :=
  { title := some "Hello"
    description := ""
    url := "u"
    imageUrl := "p"
    source := "CryptoCompare"
    publishedAt := 2000
    categories := [] }

/-! ## Helper lemmas -/

theorem bindInv {α β : Type} {e : Except Unit α} {f : α → Except Unit β} {b : β}
    (h : e >>= f = Except.ok b) : ∃ v, e = Except.ok v ∧ f v = Except.ok b := by
  cases e with
  | error err => exact absurd h (by simp [Bind.bind, Except.bind])
  | ok v => exact ⟨v, rfl, by simpa [Bind.bind, Except.bind] using h⟩

theorem mapMExc_mem {f : Js → Except Unit Article} :
    ∀ {items : List Js} {l : List Article}, mapMExc f items = Except.ok l →
      ∀ a ∈ l, ∃ x ∈ items, f x = Except.ok a := by
  intro items
  induction items with
  | nil =>
    intro l h a ha
    simp only [mapMExc] at h
    cases h
    simp at ha
  | cons x rest ih =>
    intro l h a ha
    simp only [mapMExc] at h
    cases hf : f x with
    | error e => rw [hf] at h; cases h
    | ok b =>
      rw [hf] at h
      cases hr : mapMExc f rest with
      | error e => rw [hr] at h; cases h
      | ok tail =>
        rw [hr] at h
        cases h
        rcases List.mem_cons.mp ha with rfl | hmem
        · exact ⟨x, List.mem_cons_self x rest, hf⟩
        · obtain ⟨y, hy, hfy⟩ := ih hr a hmem
          exact ⟨y, List.mem_cons_of_mem x hy, hfy⟩

theorem ccDescription_shape {article : Js} {d : String}
    (h : ccDescription article = Except.ok d) :
    d = "" ∨ ∃ s, d = strTake s 200 ++ "..." := by
  unfold ccDescription at h
  obtain ⟨b, _, h⟩ := bindInv h
  split at h
  · cases b with
    | str s =>
      simp only [pure, Except.pure, Except.ok.injEq] at h
      exact Or.inr ⟨s, h.symm⟩
    | undef => cases h
    | null => cases h
    | bool b => cases h
    | num n => cases h
    | arr elems => cases h
    | obj fields => cases h
  · simp only [pure, Except.pure, Except.ok.injEq] at h
    exact Or.inl h.symm

theorem mapCC_description {ph : String} {x : Js} {a : Article}
    (h : mapCCArticle ph x = Except.ok a) :
    a.description = "" ∨ ∃ s, a.description = strTake s 200 ++ "..." := by
  unfold mapCCArticle at h
  obtain ⟨t, _, h⟩ := bindInv h
  obtain ⟨desc, hdesc, h⟩ := bindInv h
  obtain ⟨u, _, h⟩ := bindInv h
  obtain ⟨img, _, h⟩ := bindInv h
  obtain ⟨si, _, h⟩ := bindInv h
  obtain ⟨src, _, h⟩ := bindInv h
  obtain ⟨pOn, _, h⟩ := bindInv h
  obtain ⟨pMs, _, h⟩ := bindInv h
  obtain ⟨cats, _, h⟩ := bindInv h
  simp only [pure, Except.pure, Except.ok.injEq] at h
  subst h
  exact ccDescription_shape hdesc

theorem removeDuplicatesAux_eq_goD (l : List Article) :
    ∀ seen, (∀ a ∈ l, a.title.isSome) →
      removeDuplicatesAux l seen = Except.ok (goD l seen) := by
  induction l with
  | nil => intro seen _; rfl
  | cons a rest ih =>
    intro seen h
    obtain ⟨t, ht⟩ := Option.isSome_iff_exists.mp (h a (List.mem_cons_self a rest))
    have hrest : ∀ b ∈ rest, b.title.isSome := fun b hb => h b (List.mem_cons_of_mem a hb)
    have hk : keyD a = titleKey t := by simp [keyD, ht]
    simp only [removeDuplicatesAux, goD, ht, hk]
    cases hc : seenHas seen (titleKey t) with
    | true => simpa using ih seen hrest
    | false => simp [ih (titleKey t :: seen) hrest]

theorem goD_eq_specDedupFirst (l : List Article) :
    ∀ seen : List String,
      goD l seen = specDedupFirst (l.filter (fun a => !seenHas seen (keyD a))) := by
  induction l with
  | nil => intro seen; simp [goD, specDedupFirst]
  | cons a rest ih =>
    intro seen
    cases hc : seenHas seen (keyD a) with
    | true => simp [goD, hc, List.filter_cons, ih seen]
    | false =>
      simp only [goD, hc, if_neg Bool.false_ne_true, List.filter_cons, Bool.not_false,
        if_pos trivial, cond_true]
      have hf : List.filter (fun b => !seenHas (keyD a :: seen) (keyD b)) rest =
          List.filter (fun b => keyD b != keyD a && !seenHas seen (keyD b)) rest :=
        List.filter_congr (fun b _ => by simp [seenHas, Bool.not_or, bne])
      rw [ih (keyD a :: seen), specDedupFirst, List.filter_filter, hf]

theorem goD_subset (l : List Article) :
    ∀ seen a, a ∈ goD l seen → a ∈ l := by
  induction l with
  | nil => intro seen a ha; simp [goD] at ha
  | cons x rest ih =>
    intro seen a ha
    cases hc : seenHas seen (keyD x) with
    | true =>
      rw [goD, hc] at ha
      exact List.mem_cons_of_mem x (ih seen a (by simpa using ha))
    | false =>
      rw [goD, hc] at ha
      simp only [if_neg Bool.false_ne_true] at ha
      rcases List.mem_cons.mp ha with rfl | hmem
      · exact List.mem_cons_self a rest
      · exact List.mem_cons_of_mem x (ih _ a hmem)

theorem goD_keys (l : List Article) :
    ∀ seen, ((goD l seen).map keyD).Nodup ∧
      ∀ a ∈ goD l seen, seenHas seen (keyD a) = false := by
  induction l with
  | nil => intro seen; simp [goD]
  | cons x rest ih =>
    intro seen
    cases hc : seenHas seen (keyD x) with
    | true => simpa [goD, hc] using ih seen
    | false =>
      obtain ⟨ihn, ihs⟩ := ih (keyD x :: seen)
      simp only [goD, hc, if_neg Bool.false_ne_true]
      constructor
      · simp only [List.map_cons, List.nodup_cons]
        refine ⟨?_, ihn⟩
        intro hmem
        obtain ⟨b, hb, hkb⟩ := List.mem_map.mp hmem
        have := ihs b hb
        rw [hkb] at this
        simp [seenHas] at this
      · intro a ha
        rcases List.mem_cons.mp ha with rfl | hmem
        · exact hc
        · have := ihs a hmem
          simp only [seenHas, Bool.or_eq_false_iff] at this
          exact this.2

theorem goD_fix (r : List Article) :
    ∀ seen, ((r.map keyD).Nodup) →
      (∀ a ∈ r, seenHas seen (keyD a) = false) → goD r seen = r := by
  induction r with
  | nil => intro seen _ _; rfl
  | cons x rest ih =>
    intro seen hnd hs
    have hc : seenHas seen (keyD x) = false := hs x (List.mem_cons_self x rest)
    rw [goD, hc]
    simp only [if_neg Bool.false_ne_true]
    simp only [List.map_cons, List.nodup_cons] at hnd
    congr 1
    refine ih (keyD x :: seen) hnd.2 ?_
    intro b hb
    simp only [seenHas, Bool.or_eq_false_iff]
    refine ⟨?_, hs b (List.mem_cons_of_mem x hb)⟩
    have : keyD b ≠ keyD x := fun hbx => hnd.1 (hbx ▸ List.mem_map_of_mem keyD hb)
    simpa using this

theorem removeDuplicatesAux_ok_titles (l : List Article) :
    ∀ seen r, removeDuplicatesAux l seen = Except.ok r → ∀ a ∈ l, a.title.isSome := by
  induction l with
  | nil => intro seen r _ a ha; simp at ha
  | cons x rest ih =>
    intro seen r h a ha
    cases hta : x.title with
    | none =>
      simp only [removeDuplicatesAux, hta] at h
      cases h
    | some t =>
      simp only [removeDuplicatesAux, hta] at h
      rcases List.mem_cons.mp ha with rfl | hmem
      · simp [hta]
      · cases hc : seenHas seen (titleKey t) with
        | true =>
          rw [hc] at h
          simp only [if_pos rfl] at h
          exact ih seen r h a hmem
        | false =>
          rw [hc] at h
          simp only [if_neg Bool.false_ne_true] at h
          cases hrec : removeDuplicatesAux rest (titleKey t :: seen) with
          | error e => rw [hrec] at h; cases h
          | ok tail => exact ih (titleKey t :: seen) tail hrec a hmem

/-! ## Claim theorems -/

/-- Claim C2 (confirmed): for every combination of the three adapter
outcomes, the merge step yields exactly the concatenation of the successful
adapters' output lists; failed adapters contribute nothing.  The outcomes
are universally quantified `Option`s, covering all 8 success/failure
combinations and all output values. -/
theorem merge_is_concat_of_fulfilled (o1 o2 o3 : Option (List Article)) :
    mergeSettled [o1, o2, o3] = o1.getD [] ++ o2.getD [] ++ o3.getD [] := by
  cases o1 <;> cases o2 <;> cases o3 <;> simp [mergeSettled]

/-- Claim C4 (confirmed): after the sort step of a fetch cycle, every
article precedes only articles that are at most as recent (publishedAt
descending, no tie-break asserted). -/
theorem sort_step_newest_first (results : List (Option (List Article))) :
    (sortByDate (mergeSettled results)).Pairwise
      (fun a b => a.publishedAt ≥ b.publishedAt) :=
  List.sorted_insertionSort dateGe (mergeSettled results)

/-- Claim C3 (confirmed): on title-populated input (the spec's data-model
invariant: `title` is required text), `removeDuplicates` returns exactly
the spec-side first-occurrence filter `specDedupFirst`: in order, the first
occurrence of each distinct lower-cased 50-character title key is kept and
every later article with the same key is dropped — in particular two
articles whose titles share a case-folded 50-character prefix collapse to
the first one. -/
theorem removeDuplicates_keeps_first_occurrence (l : List Article)
    (h : ∀ a ∈ l, a.title.isSome) :
    removeDuplicates l = Except.ok (specDedupFirst l) := by
  rw [removeDuplicates, removeDuplicatesAux_eq_goD l [] h, goD_eq_specDedupFirst l []]
  simp [seenHas]

theorem removeDuplicates_keeps_first_occurrence_witness :
    (∀ a ∈ dupList, a.title.isSome) ∧
    removeDuplicates dupList = Except.ok (specDedupFirst dupList) :=
  ⟨by decide, removeDuplicates_keeps_first_occurrence dupList (by decide)⟩

/-- Claim C7 (confirmed): deduplication is idempotent — whenever
`removeDuplicates` succeeds on `l` with output `r`, running it again on `r`
succeeds and returns `r` unchanged. -/
theorem removeDuplicates_idempotent (l r : List Article)
    (h : removeDuplicates l = Except.ok r) :
    removeDuplicates r = Except.ok r := by
  have htl : ∀ a ∈ l, a.title.isSome := removeDuplicatesAux_ok_titles l [] r h
  have hg : removeDuplicatesAux l [] = Except.ok (goD l []) :=
    removeDuplicatesAux_eq_goD l [] htl
  rw [removeDuplicates] at h
  rw [h] at hg
  have hr : r = goD l [] := by
    cases hg
    rfl
  have htr : ∀ a ∈ r, a.title.isSome := fun a ha =>
    htl a (goD_subset l [] a (hr ▸ ha))
  have hnd : (r.map keyD).Nodup := by
    rw [hr]; exact (goD_keys l []).1
  have hfix : goD r [] = r := goD_fix r [] hnd (fun a _ => rfl)
  rw [removeDuplicates, removeDuplicatesAux_eq_goD r [] htr, hfix]

set_option maxRecDepth 4000 in
theorem removeDuplicates_idempotent_witness :
    removeDuplicates dupList = Except.ok [articleBtcUpper, articleEth] ∧
    removeDuplicates [articleBtcUpper, articleEth] =
      Except.ok [articleBtcUpper, articleEth] :=
  ⟨by decide, removeDuplicates_idempotent dupList _ (by decide)⟩

/-- Claim C8 (confirmed): the filter stage with the category sentinel
`"all"` and the empty search text is the identity on every article list. -/
theorem applyFilters_all_empty_id (l : List Article) :
    applyFilters l "all" "" = l := by
  simp [applyFilters, (by decide : strTrim (strLower "") = "")]

/-- Claim C5 (confirmed): a fetch-cycle request arriving while a cycle is
in flight (`isLoading = true`) is dropped: the controller state — and with
it the in-flight cycle's eventual result — is entirely unaffected. -/
theorem single_flight_drop (s : AppState) (results : List (Option (List Article)))
    (now : Int) (h : s.isLoading = true) :
    fetchNews s results now = s := by
  simp [fetchNews, h]

theorem single_flight_drop_witness :
    stateBusy.isLoading = true ∧ fetchNews stateBusy [] 0 = stateBusy :=
  ⟨rfl, single_flight_drop stateBusy [] 0 rfl⟩

/-- Claim C10 (confirmed): every run of the fetch cycle — success path or
the cycle-level error path — ends with `isLoading = false` (line 78 sits
after the `try`/`catch`), so the single-flight guard cannot permanently
block later requests. -/
theorem loading_flag_cleared (s : AppState) (results : List (Option (List Article)))
    (now : Int) (h : s.isLoading = false) :
    (fetchNews s results now).isLoading = false := by
  cases hrd : removeDuplicates (sortByDate (mergeSettled results)) with
  | error e => simp [fetchNews, h, hrd]
  | ok deduped => simp [fetchNews, h, hrd]

set_option maxRecDepth 4000 in
theorem loading_flag_cleared_witness :
    statePrior.isLoading = false ∧ (fetchNews statePrior [] 0).isLoading = false :=
  ⟨rfl, loading_flag_cleared statePrior [] 0 rfl⟩

set_option maxRecDepth 4000 in
/-- Claim C1 counterexample: a cycle over a prior one-article state that
throws inside `removeDuplicates` (a record with a non-string title, as the
CryptoCompare adapter can deliver) does surface the error state, but the
controller's article list is NOT left at its pre-cycle value: lines 57-65
already overwrote `this.allNews` with the merged, sorted list before the
throw. -/
theorem cycle_error_list_changed :
    (fetchNews statePrior [some [articleNoTitle], none, none] 5).display =
      Display.unableToLoad ∧
    (fetchNews statePrior [some [articleNoTitle], none, none] 5).allNews ≠
      statePrior.allNews := by
  decide

/-- Claim C1 (corrected): if the fetch cycle throws after the adapters
settle (the reachable throw is `removeDuplicates` on a non-string title),
the cycle aborts and an error state is surfaced to the rendering boundary
with the loading flag cleared — but the controller's article list then
holds the merged, sorted list built earlier in the cycle, not its pre-cycle
value. -/
theorem cycle_error_keeps_merged_list (s : AppState)
    (results : List (Option (List Article))) (now : Int)
    (h1 : s.isLoading = false)
    (h2 : removeDuplicates (sortByDate (mergeSettled results)) = Except.error ()) :
    (fetchNews s results now).display = Display.unableToLoad ∧
    (fetchNews s results now).allNews = sortByDate (mergeSettled results) ∧
    (fetchNews s results now).isLoading = false := by
  refine ⟨?_, ?_, ?_⟩ <;> simp [fetchNews, h1, h2]

theorem cycle_error_keeps_merged_list_witness :
    statePrior.isLoading = false ∧
    removeDuplicates (sortByDate (mergeSettled [some [articleNoTitle], none, none])) =
      Except.error () ∧
    ((fetchNews statePrior [some [articleNoTitle], none, none] 5).display =
        Display.unableToLoad ∧
      (fetchNews statePrior [some [articleNoTitle], none, none] 5).allNews =
        sortByDate (mergeSettled [some [articleNoTitle], none, none]) ∧
      (fetchNews statePrior [some [articleNoTitle], none, none] 5).isLoading = false) :=
  ⟨rfl, rfl,
    cycle_error_keeps_merged_list statePrior [some [articleNoTitle], none, none] 5 rfl rfl⟩

/-- Claim C6 (confirmed): none of the three adapters lets an error escape —
each is a total function to an article list; whatever the fetch outcome
(network error, failed JSON parse, or any parsed document, including non-2xx
bodies, malformed shapes and missing fields), the adapter returns its
`try`-body's list on success and degrades to `[]` exactly when the body
throws.  Concrete degradations for each failure class are included. -/
theorem adapters_never_throw (ph : String) (now : Int) (parseDate : String → Int)
    (o : FetchOutcome) :
    ((match fetchCryptoCompareBody ph o with
      | Except.ok l => fetchCryptoCompareNews ph o = l
      | Except.error _ => fetchCryptoCompareNews ph o = []) ∧
     (match fetchCoinGeckoBody ph now o with
      | Except.ok l => fetchCoinGeckoNews ph now o = l
      | Except.error _ => fetchCoinGeckoNews ph now o = []) ∧
     (match fetchAlternativeBody parseDate ph now o with
      | Except.ok l => fetchAlternativeNews parseDate ph now o = l
      | Except.error _ => fetchAlternativeNews parseDate ph now o = [])) ∧
    fetchCryptoCompareNews ph FetchOutcome.networkError = [] ∧
    fetchCryptoCompareNews ph FetchOutcome.jsonError = [] ∧
    fetchCryptoCompareNews ph (FetchOutcome.ok Js.null) = [] ∧
    fetchCryptoCompareNews ph (FetchOutcome.ok (Js.obj [])) = [] ∧
    fetchCryptoCompareNews ph (FetchOutcome.ok (Js.obj [("Data", Js.num 3)])) = [] := by
  refine ⟨⟨?_, ?_, ?_⟩, rfl, rfl, rfl, rfl, rfl⟩
  · cases hb : fetchCryptoCompareBody ph o <;> simp [fetchCryptoCompareNews, hb]
  · cases hb : fetchCoinGeckoBody ph now o <;> simp [fetchCoinGeckoNews, hb]
  · cases hb : fetchAlternativeBody parseDate ph now o <;>
      simp [fetchAlternativeNews, hb]

set_option maxRecDepth 100000 in
/-- Claim C9 counterexample: a 201-character body yields a description of
203 characters (`substring(0, 200)` keeps 200 characters and `"..."` is
appended), so the produced description is not truncated to 200 characters. -/
theorem cc_description_can_exceed_200 :
    ¬ (∀ a ∈ fetchCryptoCompareNews "ph" (FetchOutcome.ok ccPayloadLong),
        a.description.length ≤ 200) := by
  decide

/-- Claim C9 (corrected): every article the news-feed (CryptoCompare)
adapter produces has as description either the empty string (no body text)
or the body's first 200 characters with `"..."` appended — truncation at
200 characters of body text plus a 3-character ellipsis, not a 200-character
cap. -/
theorem cc_description_truncates_at_200 (ph : String) (o : FetchOutcome)
    (a : Article) (h : a ∈ fetchCryptoCompareNews ph o) :
    a.description = "" ∨ ∃ s, a.description = strTake s 200 ++ "..." := by
  cases hb : fetchCryptoCompareBody ph o with
  | error e => simp [fetchCryptoCompareNews, hb] at h
  | ok l =>
    rw [fetchCryptoCompareNews, hb] at h
    cases o with
    | networkError => cases hb
    | jsonError => cases hb
    | ok data =>
      rw [fetchCryptoCompareBody] at hb
      obtain ⟨d, _, hb⟩ := bindInv hb
      split at hb
      · cases d with
        | arr items =>
          obtain ⟨x, _, hfx⟩ := mapMExc_mem hb a h
          exact mapCC_description hfx
        | undef => cases hb
        | null => cases hb
        | bool b => cases hb
        | num n => cases hb
        | str s => cases hb
        | obj fields => cases hb
      · simp only [pure, Except.pure, Except.ok.injEq] at hb
        subst hb
        simp at h

set_option maxRecDepth 4000 in
theorem cc_description_truncates_at_200_witness :
    ccArticleSmall ∈ fetchCryptoCompareNews "p" (FetchOutcome.ok ccPayloadSmall) ∧
    (ccArticleSmall.description = "" ∨
      ∃ s, ccArticleSmall.description = strTake s 200 ++ "...") :=
  have hmem : ccArticleSmall ∈ fetchCryptoCompareNews "p" (FetchOutcome.ok ccPayloadSmall) := by
    rw [(by decide :
      fetchCryptoCompareNews "p" (FetchOutcome.ok ccPayloadSmall) = [ccArticleSmall])]
    exact List.mem_singleton.mpr rfl
  ⟨hmem, cc_description_truncates_at_200 "p" (FetchOutcome.ok ccPayloadSmall) ccArticleSmall hmem⟩

end CryptoNews
